import Mathlib

/-!
Shallow embedding of the f5-ai-gateway-sdk processor pipeline:
field catalog, signatures, the multipart field validator, result/reject
normalization and multipart response serialization, together with proofs
of the specification's claims about them.
-/

set_option maxHeartbeats 1000000

namespace AIGW

/-! ## Field catalog (`multipart_fields.py`) -/

def INPUT_NAME : String := "input.messages"

def INPUT_PARAMETERS_NAME : String := "input.parameters"

def RESPONSE_NAME : String := "response.choices"

def RESPONSE_PARAMETERS_NAME : String := "response.parameters"

def METADATA_NAME : String := "metadata"

def REJECT_NAME : String := "reject"

/-- Source `REQUIRED_MULTIPART_FIELDS = frozenset([METADATA_NAME])` -/
def REQUIRED_MULTIPART_FIELDS : List String := [METADATA_NAME]

/-- key to order fields by where metadata is always last
(`multipart_field_order` in `multipart_fields.py`): a dict lookup with
default 0. -/
def multipart_field_order (field : String) : Nat :=
  if field = INPUT_NAME then 0
  else if field = RESPONSE_NAME then 1
  else if field = REJECT_NAME then 2
  else if field = METADATA_NAME then 3
  else 0

/-! ## Signature (`signature.py`) -/

inductive SignatureField where
  | INPUT
  | RESPONSE
  deriving DecidableEq, Repr

def SignatureField.value : SignatureField → String
  | .INPUT => INPUT_NAME
  | .RESPONSE => RESPONSE_NAME

/-- The `Signature` dataclass after `__post_init__` has normalized its
fields: a falsy (`None` or empty) set is stored as `None`, otherwise a
frozenset.  Sets are modelled as lists of distinct membership-relevant
elements. -/
structure Signature where
  required : Option (List SignatureField)
  optional : Option (List SignatureField)
  deriving DecidableEq, Repr

/-- Python truthiness normalization in `Signature.__post_init__`:
`frozenset(self.required) if self.required else None`. -/
def normalizeFieldSet : Option (List SignatureField) → Option (List SignatureField)
  | none => none
  | some l => if l.isEmpty then none else some l

/-- Source `Signature.__post_init__`: raises `ValueError` iff both `required`
and `optional` are `None`; otherwise normalizes both via truthiness. -/
def mkSignature (required optional : Option (List SignatureField)) :
    Except String Signature :=
  if required.isNone ∧ optional.isNone then
    .error "Signature must have at least one of required or optional"
  else
    .ok { required := normalizeFieldSet required
          optional := normalizeFieldSet optional }

/-- Python's `str.startswith`, modelled on the character sequences of the
two strings. -/
def strStartsWith (s pre : String) : Bool := pre.data.isPrefixOf s.data

/-- Source `Signature.__supports_direction`: checks `f.value.startswith(f"{direction}.")`
over `required`, then over `optional` when not yet supported. -/
def Signature.supportsDirection (sig : Signature) (direction : String) : Bool :=
  let fromRequired :=
    match sig.required with
    | some req => req.any fun f => strStartsWith f.value (direction ++ ".")
    | none => false
  if fromRequired then true
  else
    match sig.optional with
    | some opt => opt.any fun f => strStartsWith f.value (direction ++ ".")
    | none => false

def Signature.supportsInput (sig : Signature) : Bool :=
  sig.supportsDirection "input"

def Signature.supportsResponse (sig : Signature) : Bool :=
  sig.supportsDirection "response"

/-- Source `INPUT_ONLY_SIGNATURE = Signature(required={SignatureField.INPUT})` -/
def INPUT_ONLY_SIGNATURE : Signature :=
  { required := some [SignatureField.INPUT], optional := none }

/-- Source `RESPONSE_ONLY_SIGNATURE = Signature(required={SignatureField.RESPONSE})` -/
def RESPONSE_ONLY_SIGNATURE : Signature :=
  { required := some [SignatureField.RESPONSE], optional := none }

/-! ## Errors (`errors.py`)

Each `ProcessorError` subclass is a constructor; `statusCode` and
`detail` mirror the values passed to `ProcessorError.__init__`. -/

inductive ProcessorError where
  | missingMultipartField (fieldName : String)
  | missingPromptAndResponse
  | invalidMultipartFields (detail : String)
  | responseObject
  deriving DecidableEq, Repr

def ProcessorError.statusCode : ProcessorError → Nat
  | .missingMultipartField _ => 400
  | .missingPromptAndResponse => 400
  | .invalidMultipartFields _ => 400
  | .responseObject => 500

def ProcessorError.detail : ProcessorError → String
  | .missingMultipartField fieldName => fieldName ++ " part is missing"
  | .missingPromptAndResponse =>
      INPUT_NAME ++ " (prompt) and " ++ RESPONSE_NAME ++
        " (response) fields are missing - at least one is required"
  | .invalidMultipartFields d => d
  | .responseObject => "problem creating response object"

/-- Source `ProcessorError.json_error` when the error carries no sub-messages
(none of the errors modelled here pass `messages`). -/
def ProcessorError.jsonError (e : ProcessorError) : String :=
  "\x7b\"detail\": \"" ++ e.detail ++ "\"\x7d"

/-- The error-to-response conversion in `Processor.handle_request`:
`Response(status_code=e.status_code, content=e.json_error())`. -/
structure ErrorResponse where
  status_code : Nat
  content : String
  deriving DecidableEq, Repr

def ProcessorError.toResponse (e : ProcessorError) : ErrorResponse :=
  { status_code := e.statusCode, content := e.jsonError }

/-! ## Field validator (`Processor._validate_and_find_parameters_name`)

A multipart form is modelled by the list of its field names; `FormData`
membership (`field in form`) is list membership. -/

def matchedInput (form : List String) : Bool := form.contains INPUT_NAME

def matchedResponse (form : List String) : Bool := form.contains RESPONSE_NAME

def matchedInputParameters (form : List String) : Bool :=
  form.contains INPUT_PARAMETERS_NAME

def matchedResponseParameters (form : List String) : Bool :=
  form.contains RESPONSE_PARAMETERS_NAME

/-- Source `is_response_request = matched_response` (processor.py line 667). -/
def isResponseRequest (form : List String) : Bool := matchedResponse form

/-- Source `is_prompt_request = not is_response_request` (processor.py line 668). -/
def isPromptRequest (form : List String) : Bool := !isResponseRequest form

/-- The first element of `map(lambda f: f.value, self.signature.required)`
that is missing from the form, if any (iteration in the—here, list—order of
the set). -/
def firstMissingRequired (sig : Signature) (form : List String) : Option String :=
  match sig.required with
  | some req => (req.map SignatureField.value).find? (fun r => !form.contains r)
  | none => none

/-- The `if is_response_request:` / `if is_prompt_request:` blocks of
`_validate_and_find_parameters_name`: the two guards are mutually
exclusive (`is_prompt_request = not is_response_request`), so they are
rendered as an if/else.  Returns the raised error, if any. -/
def directionChecks (sig : Signature) (form : List String) : Option ProcessorError :=
  if isResponseRequest form then
    if !sig.supportsResponse then
      some (.invalidMultipartFields "Processor signature does not allow response fields")
    else
      match firstMissingRequired sig form with
      | some r =>
          some (.invalidMultipartFields ("Missing required field for response: " ++ r))
      | none => none
  else
    if !sig.supportsInput then
      some (.invalidMultipartFields "Processor signature does not allow input fields")
    else
      match firstMissingRequired sig form with
      | some r =>
          some (.invalidMultipartFields ("Missing required field for input: " ++ r))
      | none => none

/-- The parameters cross-field legality checks of
`_validate_and_find_parameters_name`. -/
def parameterChecks (form : List String) : Option ProcessorError :=
  if isResponseRequest form && matchedInputParameters form then
    some (.invalidMultipartFields
      ("prompt parameters cannot be present with " ++ RESPONSE_NAME ++ " field"))
  else if isPromptRequest form && matchedResponseParameters form then
    some (.invalidMultipartFields
      ("response parameters cannot be present with only a " ++ INPUT_NAME ++ " field"))
  else none

/-- The trailing parameters-field-name choice of
`_validate_and_find_parameters_name`. -/
def chooseParametersName (form : List String) : Option String :=
  if matchedInputParameters form then some INPUT_PARAMETERS_NAME
  else if matchedResponseParameters form then some RESPONSE_PARAMETERS_NAME
  else none

/-- Source `_validate_and_find_parameters_name`: validates the form fields
against the signature and returns the applicable parameters field name,
if any; the first raised error aborts the rest. -/
def validateAndFindParametersName (sig : Signature) (form : List String) :
    Except ProcessorError (Option String) :=
  match REQUIRED_MULTIPART_FIELDS.find? (fun required => !form.contains required) with
  | some required => .error (.missingMultipartField required)
  | none =>
    if !matchedInput form && !matchedResponse form then
      .error .missingPromptAndResponse
    else
      match directionChecks sig form with
      | some e => .error e
      | none =>
        match parameterChecks form with
        | some e => .error e
        | none => .ok (chooseParametersName form)

/-! ## JSON values and metadata (`type_hints.py`)

`Metadata = dict[str, JsonValue]`, modelled as an association list with
dict-assignment semantics. -/

inductive Json where
  | null
  | bool (b : Bool)
  | num (n : Int)
  | str (s : String)
  | arr (xs : List Json)
  | obj (kvs : List (String × Json))

abbrev Metadata := List (String × Json)

/-- Dict assignment `m[k] = v`: replace an existing key in place,
otherwise append. -/
def Metadata.set (m : Metadata) (k : String) (v : Json) : Metadata :=
  if m.any (fun kv => kv.1 == k) then
    m.map (fun kv => if kv.1 == k then (k, v) else kv)
  else m ++ [(k, v)]

def Metadata.get? (m : Metadata) (k : String) : Option Json :=
  (m.find? (fun kv => kv.1 == k)).map Prod.snd

/-- Source `"request_id" in metadata` -/
def Metadata.containsKey (m : Metadata) (k : String) : Bool :=
  m.any (fun kv => kv.1 == k)

/-- Python dict truthiness (`if self.metadata`): non-empty. -/
def metaTruthy : Option Metadata → Bool
  | none => false
  | some m => !m.isEmpty

/-- Minimal JSON string escaping for serialization (`json.dumps` /
pydantic `model_dump_json` on ordinary keys and text). -/
def jsonEscape (s : String) : String :=
  s.data.foldl (fun acc c =>
    if c = '"' then acc ++ "\\\""
    else if c = '\\' then acc ++ "\\\\"
    else acc.push c) ""

def jsonString (s : String) : String := "\"" ++ jsonEscape s ++ "\""

mutual

def Json.dump : Json → String
  | .null => "null"
  | .bool true => "true"
  | .bool false => "false"
  | .num n => toString n
  | .str s => jsonString s
  | .arr xs => "[" ++ Json.dumpList xs ++ "]"
  | .obj kvs => "\x7b" ++ Json.dumpObj kvs ++ "\x7d"

def Json.dumpList : List Json → String
  | [] => ""
  | [x] => Json.dump x
  | x :: xs => Json.dump x ++ "," ++ Json.dumpList xs

def Json.dumpObj : List (String × Json) → String
  | [] => ""
  | [(k, v)] => jsonString k ++ ":" ++ Json.dump v
  | (k, v) :: kvs => jsonString k ++ ":" ++ Json.dump v ++ "," ++ Json.dumpObj kvs

end

def Metadata.dump (m : Metadata) : String := Json.dump (.obj m)

/-! ## Messages and domain models (`request_input.py`, `response_output.py`) -/

/-- The wire form of a message's `content` key: absent, explicit JSON
`null`, or a string. -/
inductive JsonContent where
  | absent
  | null
  | str (s : String)
  deriving DecidableEq, Repr

/-- The wire form of a message object as far as the `Message` validators
inspect it. -/
structure MessageData where
  content : JsonContent := .absent
  role : Option String := none
  deriving DecidableEq, Repr

/-- A validated `Message`: `content`, `role` (default `"user"`), and the
private `_content_parsed_as_null` flag. -/
structure Message where
  content : String
  role : String := "user"
  contentParsedAsNull : Bool := false
  deriving DecidableEq, Repr

/-- Parsing a message from wire data: the `track_null_content`
before-validator maps an absent or `null` `content` (`data.get("content")
is None`) to `""` and records the fact; `set_null_flag` then moves the
record into the private attribute. -/
def parseMessage (data : MessageData) : Message :=
  match data.content with
  | .absent => { content := "", role := data.role.getD "user", contentParsedAsNull := true }
  | .null => { content := "", role := data.role.getD "user", contentParsedAsNull := true }
  | .str s => { content := s, role := data.role.getD "user", contentParsedAsNull := false }

/-- Source `Message.serialize_content`: emits `null` when the content was parsed
from `null` and is still empty. -/
def Message.serializeContent (m : Message) : JsonContent :=
  if m.contentParsedAsNull ∧ m.content.length = 0 then .null
  else .str m.content

/-- The `content` entry of `model_dump_json` as a JSON fragment. -/
def Message.dumpContent (m : Message) : String :=
  match m.serializeContent with
  | .null => "null"
  | .absent => "null"
  | .str s => jsonString s

/-- Source `Message.model_dump_json` restricted to the declared fields. -/
def Message.modelDumpJson (m : Message) : String :=
  "\x7b\"content\":" ++ m.dumpContent ++ ",\"role\":" ++ jsonString m.role ++ "\x7d"

structure RequestInput where
  messages : List Message
  deriving DecidableEq, Repr

def RequestInput.modelDumpJson (ri : RequestInput) : String :=
  "\x7b\"messages\":[" ++ String.intercalate "," (ri.messages.map Message.modelDumpJson) ++ "]\x7d"

structure Choice where
  message : Message
  deriving DecidableEq, Repr

def Choice.modelDumpJson (c : Choice) : String :=
  "\x7b\"message\":" ++ c.message.modelDumpJson ++ "\x7d"

structure ResponseOutput where
  choices : List Choice
  deriving DecidableEq, Repr

def ResponseOutput.modelDumpJson (ro : ResponseOutput) : String :=
  "\x7b\"choices\":[" ++ String.intercalate "," (ro.choices.map Choice.modelDumpJson) ++ "]\x7d"

/-- Stand-in for Python's opaque `hash(str)`: the dispatch core only ever
compares hashes for equality, and both `RequestInput.hash` and
`ResponseOutput.hash` are `hash(self.model_dump_json())`. -/
def pyHash (s : String) : Nat :=
  s.data.foldl (fun acc c => acc * 31 + c.toNat) 7

/-- Source `RequestInput.hash`. -/
def RequestInput.hashOf (ri : RequestInput) : Nat := pyHash ri.modelDumpJson

/-- Source `ResponseOutput.hash`. -/
def ResponseOutput.hashOf (ro : ResponseOutput) : Nat := pyHash ro.modelDumpJson

/-! ## Tags (`tags.py`) — only truthiness and serialization shape matter
for the dispatch claims. -/

structure Tags where
  entries : List (String × List String) := []
  deriving DecidableEq, Repr

/-- Source `Tags.__bool__`: `len(self._tags) > 0`. -/
def Tags.isTruthy (t : Tags) : Bool := !t.entries.isEmpty

/-- Source `Tags.to_response` as a JSON value. -/
def Tags.toResponse (t : Tags) : Json :=
  .obj (t.entries.map (fun kv => (kv.1, .arr (kv.2.map Json.str))))

/-! ## Multipart response (`multipart_response.py`, `multipart_fields.py`) -/

structure MultipartResponseField where
  name : String
  content : String
  content_type : String := "application/json"
  deriving DecidableEq, Repr

/-- Source `MultipartResponse.build_headers`. -/
def build_headers (field_name content_type : String) : List (String × String) :=
  [("Content-Disposition", "form-data; name=\"" ++ field_name ++ "\""),
   ("Content-Type", content_type)]

/-- The bytes yielded by one complete run of `encode_multipart_field`,
concatenated (leading boundary line, header lines, blank line, content,
trailing CRLF). -/
def encodeFieldChunk (boundary : String) (headers : List (String × String))
    (content : String) : String :=
  "--" ++ boundary ++ "\r\n" ++
    String.join (headers.map (fun h => h.1 ++ ": " ++ h.2 ++ "\r\n")) ++
    "\r\n" ++ content ++ "\r\n"

/-- Source `encode_multipart_field`, with its `ValueError` guards on an empty
boundary or empty content. -/
def encode_multipart_field (boundary : String) (headers : List (String × String))
    (content : String) : Except String String :=
  if boundary = "" then .error "boundary must be provided"
  else if content = "" then .error "content must be provided"
  else .ok (encodeFieldChunk boundary headers content)

/-- Source `fields.sort(key=lambda f: multipart_field_order(f.name))`: Python's
stable sort by the field-order key. -/
def sortFields (fields : List MultipartResponseField) : List MultipartResponseField :=
  fields.insertionSort
    (fun a b => multipart_field_order a.name ≤ multipart_field_order b.name)

structure MultipartHttpResponse where
  status_code : Nat
  /-- the response's parts, in their serialized (sorted) order -/
  parts : List MultipartResponseField
  /-- the streamed chunks: one per encoded part, plus the closing boundary -/
  chunks : List String
  deriving DecidableEq, Repr

/-- The `for f in fields:` loop of `build_content`: encode each (already
sorted) part in order, propagating the first encoding error. -/
def encodeParts (boundary : String) : List MultipartResponseField → Except String (List String)
  | [] => .ok []
  | f :: fs =>
      match encode_multipart_field boundary (build_headers f.name f.content_type) f.content with
      | .error e => .error e
      | .ok chunk =>
          match encodeParts boundary fs with
          | .error e => .error e
          | .ok chunks => .ok (chunk :: chunks)

/-- Source `MultipartResponse.__init__` plus `build_content`, with the random
boundary passed in explicitly. -/
def mkMultipartResponse (boundary : String) (status_code : Nat)
    (fields : List MultipartResponseField) : Except String MultipartHttpResponse :=
  if status_code < 1 ∨ status_code > 599 then .error "Invalid HTTP status code"
  else if !fields.any (fun f => f.name == "metadata") then .error "Metadata is required"
  else
    match encodeParts boundary (sortFields fields) with
    | .error e => .error e
    | .ok encoded =>
        .ok { status_code := status_code
              parts := sortFields fields
              chunks := encoded ++ ["--" ++ boundary ++ "--\r\n"] }

/-! ## Result and Reject (`result.py`) -/

structure Result where
  modified_prompt : Option RequestInput := none
  modified_response : Option ResponseOutput := none
  metadata : Option Metadata := none
  processor_result : Option Metadata := none
  tags : Tags := {}

/-- The `check_prompt_or_response` pydantic model validator, run at
construction time. -/
def Result.check_prompt_or_response (r : Result) : Except String Result :=
  if r.modified_prompt.isSome ∧ r.modified_response.isSome then
    .error "modified_prompt and modified_response are mutually exlusive"
  else .ok r

/-- Source `Result.modified` property. -/
def Result.modifiedProp (r : Result) : Bool :=
  r.modified_prompt.isSome || r.modified_response.isSome

/-- Source `Result.is_empty` property (each field tested for Python truthiness). -/
def Result.is_empty (r : Result) : Bool :=
  !(metaTruthy r.metadata || r.modified_response.isSome || r.modified_prompt.isSome
      || metaTruthy r.processor_result || r.tags.isTruthy)

/-- Source `logging.warning` call sites of the dispatch pipeline, one constructor
per format string. -/
inductive Warning where
  | modificationDropped (processorName : String)
  | tagsDropped (processorName : String)
  | rejectionDropped (processorName : String)
  deriving DecidableEq, Repr

def Warning.message : Warning → String
  | .modificationDropped n =>
      n ++ " tried to modify request when parameters.modify was set to false, modification will be dropped"
  | .tagsDropped n =>
      n ++ " tried to annotate request with tags when parameters.annotate was set to false, tags will be dropped"
  | .rejectionDropped n =>
      n ++ " tried to reject request when parameters.reject was set to false, rejection will be dropped"

/-- Source `Result.validate_allowed`: drops disallowed modifications and tags,
returning the logged warnings alongside the updated result. -/
def Result.validate_allowed (r : Result) (processor_name : String)
    (annotate modify : Bool) : Result × List Warning :=
  let step1 :=
    if r.modifiedProp && !modify then
      ({ r with modified_prompt := none, modified_response := none },
       [Warning.modificationDropped processor_name])
    else (r, ([] : List Warning))
  let step2 :=
    if step1.1.tags.isTruthy && !annotate then
      ({ step1.1 with tags := {} }, [Warning.tagsDropped processor_name])
    else (step1.1, ([] : List Warning))
  (step2.1, step1.2 ++ step2.2)

def convert_metadata_to_multipart_field (meta : Metadata) : MultipartResponseField :=
  { name := METADATA_NAME, content := meta.dump }

def RequestInput.to_multipart_field (ri : RequestInput) : MultipartResponseField :=
  { name := INPUT_NAME, content := ri.modelDumpJson }

def ResponseOutput.to_multipart_field (ro : ResponseOutput) : MultipartResponseField :=
  { name := RESPONSE_NAME, content := ro.modelDumpJson }

inductive HttpResponse where
  | noContent
  | multipart (resp : MultipartHttpResponse)

/-- Source `Response(status_code=HTTP_204_NO_CONTENT)` versus the multipart
response's own status code. -/
def HttpResponse.statusCode : HttpResponse → Nat
  | .noContent => 204
  | .multipart resp => resp.status_code

def HttpResponse.parts : HttpResponse → List MultipartResponseField
  | .noContent => []
  | .multipart resp => resp.parts

/-- The `if not ... : return Response(status_code=HTTP_204_NO_CONTENT)`
guard of `Result.to_response` (each field tested for Python truthiness). -/
def Result.emptyResponse (r : Result) : Bool :=
  !metaTruthy r.metadata && !r.tags.isTruthy && !metaTruthy r.processor_result
    && !r.modified_prompt.isSome && !r.modified_response.isSome

/-- The metadata object assembled by `Result.to_response`: start from
`self.metadata` (replaced by an empty dict when falsy), then fold in
`processor_result` and `tags` under their reserved keys. -/
def Result.responseMetadata (r : Result) : Metadata :=
  let meta0 : Metadata :=
    match r.metadata with
    | some m => if m.isEmpty then [] else m
    | none => []
  let meta1 :=
    if metaTruthy r.processor_result then
      meta0.set "processor_result" (.obj (r.processor_result.getD []))
    else meta0
  if r.tags.isTruthy then meta1.set "tags" r.tags.toResponse else meta1

/-- The `fields` list assembled by `Result.to_response`: metadata first,
then the modified response, else the modified prompt, if present. -/
def Result.responseFieldList (r : Result) : List MultipartResponseField :=
  [convert_metadata_to_multipart_field r.responseMetadata] ++
    (match r.modified_response with
     | some resp => [resp.to_multipart_field]
     | none =>
        match r.modified_prompt with
        | some p => [p.to_multipart_field]
        | none => [])

/-- Source `Result.to_response`, with the random boundary passed in explicitly. -/
def Result.to_response (r : Result) (boundary : String) : Except String HttpResponse :=
  if r.emptyResponse then
    .ok .noContent
  else
    match mkMultipartResponse boundary 200 r.responseFieldList with
    | .error e => .error e
    | .ok resp => .ok (.multipart resp)

structure Reject where
  code : String
  detail : String
  metadata : Metadata := []
  tags : Tags := {}
  processor_result : Option Metadata := none

/-- Source `Reject.model_dump_json` (metadata and tags are excluded fields). -/
def Reject.modelDumpJson (rej : Reject) : String :=
  "\x7b\"code\":" ++ jsonString rej.code ++ ",\"detail\":" ++ jsonString rej.detail ++
    ",\"processor_result\":" ++
    (match rej.processor_result with
     | some m => Json.dump (.obj m)
     | none => "null") ++ "\x7d"

def Reject.to_multipart_field (rej : Reject) : MultipartResponseField :=
  { name := REJECT_NAME, content := rej.modelDumpJson }

/-- The metadata object assembled by `Reject.to_response`: fold `tags`
and then `processor_result` into `self.metadata`. -/
def Reject.responseMetadata (rej : Reject) : Metadata :=
  let meta0 :=
    if rej.tags.isTruthy then rej.metadata.set "tags" rej.tags.toResponse
    else rej.metadata
  if metaTruthy rej.processor_result then
    meta0.set "processor_result" (.obj (rej.processor_result.getD []))
  else meta0

/-- Source `Reject.to_response`, with the random boundary passed in explicitly. -/
def Reject.to_response (rej : Reject) (boundary : String) : Except String HttpResponse :=
  match mkMultipartResponse boundary 200
      [rej.to_multipart_field, convert_metadata_to_multipart_field rej.responseMetadata] with
  | .error e => .error e
  | .ok resp => .ok (.multipart resp)

/-! ## Parameters (`parameters.py`) — the three reserved flags. -/

structure Parameters where
  annotate : Bool := true
  modify : Bool := false
  reject : Bool := false
  deriving DecidableEq, Repr

/-! ## Dispatch core: outcome normalization (`Processor._parse_and_process`) -/

/-- What the handler returned: a `Result`, a `Reject`, or anything else
(the wildcard arm of the `match result:`). -/
inductive Outcome where
  | result (r : Result)
  | reject (rej : Reject)
  | invalid

/-- The per-processor identity the dispatch core stamps into metadata. -/
structure ProcessorInfo where
  name : String
  id : String
  version : String
  app_details : Option Metadata := none

/-- The common-field stamping of `_parse_and_process` (processor_id,
processor_version, forwarded request_id/step_id, app_details). -/
def stampCommonMetadata (proc : ProcessorInfo) (requestMetadata : Metadata)
    (m : Metadata) : Metadata :=
  let m := m.set "processor_id" (.str proc.id)
  let m := m.set "processor_version" (.str proc.version)
  let m :=
    if requestMetadata.containsKey "request_id" then
      m.set "request_id" ((requestMetadata.get? "request_id").getD .null)
    else m
  let m :=
    if requestMetadata.containsKey "step_id" then
      m.set "step_id" ((requestMetadata.get? "step_id").getD .null)
    else m
  match proc.app_details with
  | some d => m.set "app_details" (.obj d)
  | none => m

/-- The metadata initialization and stamping step of `_parse_and_process`
(lines preceding the `match result:`): initialize empty metadata unless
the outcome is empty, then stamp common fields when metadata is present.
`Reject.metadata` is never `None` and `Reject.is_empty()` is always
false, so a reject is always stamped. -/
def stampOutcome (proc : ProcessorInfo) (requestMetadata : Metadata) :
    Outcome → Outcome
  | .result r =>
      let r :=
        if r.metadata.isNone && !r.is_empty then { r with metadata := some [] } else r
      match r.metadata with
      | some m =>
          .result { r with metadata := some (stampCommonMetadata proc requestMetadata m) }
      | none => .result r
  | .reject rej =>
      .reject { rej with metadata := stampCommonMetadata proc requestMetadata rej.metadata }
  | .invalid => .invalid

/-- The `match result:` of `_parse_and_process`: hash-based no-op
elimination followed by `validate_allowed` for a `Result`; the
`parameters.reject` gate for a `Reject`; `ResponseObjectError` for
anything else.  `prompt_hash`/`response_hash` are the hashes computed
before the handler was invoked (`None` for the direction not taken). -/
def dispatchOutcome (proc : ProcessorInfo) (params : Parameters)
    (prompt_hash response_hash : Option Nat) :
    Outcome → Except ProcessorError (Outcome × List Warning)
  | .result result =>
      let modified :=
        (match result.modified_prompt with
         | some mp => prompt_hash != some mp.hashOf
         | none => false)
        ||
        (match result.modified_response with
         | some mr => response_hash != some mr.hashOf
         | none => false)
      let result :=
        if !modified && (result.modified_prompt.isSome || result.modified_response.isSome) then
          { result with modified_prompt := none, modified_response := none }
        else result
      let validated := result.validate_allowed proc.name params.annotate params.modify
      .ok (.result validated.1, validated.2)
  | .reject rej =>
      if !params.reject then
        .ok (.result { metadata := some rej.metadata },
             [Warning.rejectionDropped proc.name])
      else
        .ok (.reject rej, [])
  | .invalid => .error .responseObject

/-- Source `_extract_multipart_field` returns `None` exactly when the named
field is absent from the form (`form.get(field_name) is None`), so the
`prompt` value of `_parse_multipart_fields` is `None` iff `input.messages`
is absent. -/
def promptIsNone (form : List String) : Bool := !form.contains INPUT_NAME

/-- Likewise, `response` is `None` iff `response.choices` is absent. -/
def responseIsNone (form : List String) : Bool := !form.contains RESPONSE_NAME

/-- Source `input_direction = prompt is not None and response is None`
(processor.py line 875). -/
def inputDirection (form : List String) : Bool :=
  !promptIsNone form && responseIsNone form

/-- Source `result.to_response()` on the final outcome. -/
def Outcome.to_response (boundary : String) : Outcome → Except String HttpResponse
  | .result r => r.to_response boundary
  | .reject rej => rej.to_response boundary
  | .invalid => .error "unexpected outcome"

/-- The complete post-invocation pipeline of `_parse_and_process`:
stamping, outcome dispatch, then serialization (a serialization failure
is wrapped into `ResponseObjectError`). -/
def processOutcome (proc : ProcessorInfo) (params : Parameters)
    (requestMetadata : Metadata) (prompt_hash response_hash : Option Nat)
    (boundary : String) (outcome : Outcome) :
    Except ProcessorError (HttpResponse × List Warning) :=
  match dispatchOutcome proc params prompt_hash response_hash
      (stampOutcome proc requestMetadata outcome) with
  | .error e => .error e
  | .ok (finalOutcome, warnings) =>
      match finalOutcome.to_response boundary with
      | .error _ => .error .responseObject
      | .ok resp => .ok (resp, warnings)

end AIGW

namespace AIGW

theorem validator_ok_has_direction {sig : Signature} {form : List String} {v : Option String}
    (h : validateAndFindParametersName sig form = .ok v) :
    (matchedInput form || matchedResponse form) = true := by
  unfold validateAndFindParametersName at h
  split at h
  · exact absurd h (by simp)
  · split at h
    · exact absurd h (by simp)
    · rename_i hcond
      revert hcond
      cases matchedInput form <;> cases matchedResponse form <;> simp

/-- C1: for every multipart form containing the required metadata field and at
least one of input.messages / response.choices, the field validator classifies
the request as response-direction exactly when response.choices is present
(response presence takes precedence over input); in particular, the field set
containing metadata, input.messages and response.choices is accepted by
RESPONSE_ONLY_SIGNATURE, whose required field response.choices is present. -/
theorem response_presence_determines_direction
    (form : List String)
    (_hmeta : form.contains METADATA_NAME = true)
    (_hdir : matchedInput form = true ∨ matchedResponse form = true) :
    (isResponseRequest form = true ↔ form.contains RESPONSE_NAME = true) ∧
    (validateAndFindParametersName RESPONSE_ONLY_SIGNATURE
        [METADATA_NAME, INPUT_NAME, RESPONSE_NAME]).isOk = true := by
  constructor
  · simp [isResponseRequest, matchedResponse]
  · decide

theorem response_presence_determines_direction_witness :
    ([METADATA_NAME, INPUT_NAME, RESPONSE_NAME].contains METADATA_NAME = true ∧
     (matchedInput [METADATA_NAME, INPUT_NAME, RESPONSE_NAME] = true ∨
      matchedResponse [METADATA_NAME, INPUT_NAME, RESPONSE_NAME] = true)) ∧
    ((isResponseRequest [METADATA_NAME, INPUT_NAME, RESPONSE_NAME] = true ↔
      [METADATA_NAME, INPUT_NAME, RESPONSE_NAME].contains RESPONSE_NAME = true) ∧
     (validateAndFindParametersName RESPONSE_ONLY_SIGNATURE
        [METADATA_NAME, INPUT_NAME, RESPONSE_NAME]).isOk = true) :=
  ⟨⟨by decide, Or.inl (by decide)⟩,
   response_presence_determines_direction _ (by decide) (Or.inl (by decide))⟩

/-- C5: a multipart form containing only the metadata field fails validation,
for every signature, with HTTP status 400 and detail exactly
"input.messages (prompt) and response.choices (response) fields are missing -
at least one is required". -/
theorem metadata_only_form_rejected (sig : Signature) :
    validateAndFindParametersName sig [METADATA_NAME] =
      .error .missingPromptAndResponse ∧
    (ProcessorError.missingPromptAndResponse).toResponse.status_code = 400 ∧
    (ProcessorError.missingPromptAndResponse).detail =
      "input.messages (prompt) and response.choices (response) fields are missing - at least one is required" :=
  ⟨rfl, rfl, rfl⟩

/-- C7: constructing a Result with both modified_prompt and modified_response
set to non-None values always fails the construction-time validator, for all
contents of the two fields, including when their contents are equal. -/
theorem result_both_modifications_rejected
    (mp : RequestInput) (mr : ResponseOutput) (md pr : Option Metadata) (t : Tags) :
    Result.check_prompt_or_response
        { modified_prompt := some mp, modified_response := some mr,
          metadata := md, processor_result := pr, tags := t } =
      .error "modified_prompt and modified_response are mutually exlusive" := by
  simp [Result.check_prompt_or_response]

/-- C8 counterexample: the claim says constructing a Signature whose required
set is empty and whose optional set is None must fail, but the constructor
succeeds on that input, normalizing the empty set to None. -/
theorem signature_empty_required_accepted :
    mkSignature (some []) none = .ok { required := none, optional := none } := rfl

/-- C8 (amended): Signature construction fails exactly when both required and
optional are None; an empty set is truthy-normalized and accepted. -/
theorem signature_construction_fails_iff_both_none
    (req opt : Option (List SignatureField)) :
    (∃ e, mkSignature req opt = .error e) ↔ req = none ∧ opt = none := by
  unfold mkSignature
  rcases req with _ | r <;> rcases opt with _ | o <;> simp

/-- C9: a Message parsed from a JSON object whose content key is absent or
explicitly null validates with content equal to the empty string and the
internal null-content flag set, and serializing it back (while its content is
still empty) yields content null, reproducing the input form. -/
theorem message_null_content_round_trip
    (data : MessageData) (h : data.content = .absent ∨ data.content = .null) :
    (parseMessage data).content = "" ∧
    (parseMessage data).contentParsedAsNull = true ∧
    (parseMessage data).serializeContent = .null := by
  rcases h with h | h <;>
    simp [parseMessage, h, Message.serializeContent]

theorem message_null_content_round_trip_witness :
    (({ content := .null } : MessageData).content = .absent ∨
     ({ content := .null } : MessageData).content = .null) ∧
    ((parseMessage { content := .null }).content = "" ∧
     (parseMessage { content := .null }).contentParsedAsNull = true ∧
     (parseMessage { content := .null }).serializeContent = .null) :=
  ⟨Or.inr rfl, message_null_content_round_trip _ (Or.inr rfl)⟩

/-- C10: for every multipart form accepted by the field validator, the
dispatch core's direction choice (prompt present and response absent, which
selects process_input) agrees with the validator's direction predicate
(is_prompt_request, i.e. response.choices absent from the form). -/
theorem dispatch_direction_agrees_with_validator
    (sig : Signature) (form : List String) (v : Option String)
    (h : validateAndFindParametersName sig form = .ok v) :
    inputDirection form = isPromptRequest form := by
  have hd := validator_ok_has_direction h
  simp only [matchedInput, matchedResponse] at hd
  simp only [inputDirection, promptIsNone, responseIsNone, isPromptRequest, isResponseRequest,
    matchedResponse]
  cases hc : form.contains INPUT_NAME <;> cases hr : form.contains RESPONSE_NAME <;>
    simp_all

theorem dispatch_direction_agrees_with_validator_witness :
    validateAndFindParametersName INPUT_ONLY_SIGNATURE [METADATA_NAME, INPUT_NAME] = .ok none ∧
    inputDirection [METADATA_NAME, INPUT_NAME] = isPromptRequest [METADATA_NAME, INPUT_NAME] :=
  ⟨rfl, dispatch_direction_agrees_with_validator INPUT_ONLY_SIGNATURE _ none rfl⟩

end AIGW

namespace AIGW

theorem append_ne_empty_left {s : String} (t : String) (h : s ≠ "") : s ++ t ≠ "" := by
  intro he
  apply h
  have hd := congrArg String.data he
  simp only [String.data_append] at hd
  rcases List.append_eq_nil.mp hd with ⟨h1, _⟩
  exact String.ext (by simpa using h1)

theorem metadata_dump_ne_empty (m : Metadata) : Metadata.dump m ≠ "" := by
  show ("\x7b" ++ Json.dumpObj m ++ "\x7d") ≠ ""
  exact append_ne_empty_left _ (append_ne_empty_left _ (by decide))

theorem encodeParts_ok_of_nonempty {boundary : String} (hb : boundary ≠ "")
    (l : List MultipartResponseField) (hc : ∀ f ∈ l, f.content ≠ "") :
    encodeParts boundary l =
      .ok (l.map fun f =>
        encodeFieldChunk boundary (build_headers f.name f.content_type) f.content) := by
  induction l with
  | nil => rfl
  | cons f fs ih =>
      have hf : f.content ≠ "" := hc f (List.mem_cons_self _ _)
      have hfs := ih (fun g hg => hc g (List.mem_cons_of_mem _ hg))
      simp [encodeParts, encode_multipart_field, hb, hf, hfs]

theorem encodeParts_ok_eq_map {boundary : String} {l : List MultipartResponseField}
    {cs : List String} (h : encodeParts boundary l = .ok cs) :
    cs = l.map fun f =>
      encodeFieldChunk boundary (build_headers f.name f.content_type) f.content := by
  induction l generalizing cs with
  | nil =>
      simp only [encodeParts] at h
      cases h
      rfl
  | cons f fs ih =>
      unfold encodeParts at h
      split at h
      · exact absurd h (by simp)
      · rename_i chunk henc
        split at h
        · exact absurd h (by simp)
        · rename_i chunks hrec
          cases h
          have hch : chunk = encodeFieldChunk boundary (build_headers f.name f.content_type) f.content := by
            unfold encode_multipart_field at henc
            split at henc
            · exact absurd henc (by simp)
            · split at henc
              · exact absurd henc (by simp)
              · cases henc; rfl
          subst hch
          simp [ih hrec]

theorem mkMultipartResponse_ok {boundary : String} {status : Nat}
    {fields : List MultipartResponseField} {resp : MultipartHttpResponse}
    (h : mkMultipartResponse boundary status fields = .ok resp) :
    resp.parts = sortFields fields ∧ resp.status_code = status := by
  unfold mkMultipartResponse at h
  split at h
  · exact absurd h (by simp)
  · split at h
    · exact absurd h (by simp)
    · split at h
      · exact absurd h (by simp)
      · cases h; exact ⟨rfl, rfl⟩

end AIGW

namespace AIGW

theorem sortFields_singleton (f : MultipartResponseField) : sortFields [f] = [f] := by
  simp [sortFields]

theorem responseFieldList_no_modifications {r : Result}
    (hp : r.modified_prompt = none) (hq : r.modified_response = none) :
    r.responseFieldList = [convert_metadata_to_multipart_field r.responseMetadata] := by
  unfold Result.responseFieldList
  rw [hq, hp]
  rfl

theorem to_response_parts_all_metadata {r : Result}
    (hp : r.modified_prompt = none) (hq : r.modified_response = none)
    {boundary : String} {resp : HttpResponse}
    (h : r.to_response boundary = .ok resp) :
    ∀ p ∈ resp.parts, p.name = METADATA_NAME := by
  unfold Result.to_response at h
  split at h
  · cases h
    intro p hp'
    simp [HttpResponse.parts] at hp'
  · rw [responseFieldList_no_modifications hp hq] at h
    split at h
    · exact absurd h (by simp)
    · rename_i mresp hmk
      cases h
      intro p hmem
      have hparts := (mkMultipartResponse_ok hmk).1
      simp only [HttpResponse.parts] at hmem
      rw [hparts, sortFields_singleton] at hmem
      simp at hmem
      subst hmem
      rfl

theorem mkMultipartResponse_singleton_metadata_ok
    {boundary : String} (hb : boundary ≠ "") (meta : Metadata) :
    mkMultipartResponse boundary 200 [convert_metadata_to_multipart_field meta] =
      .ok { status_code := 200
            parts := [convert_metadata_to_multipart_field meta]
            chunks :=
              [encodeFieldChunk boundary
                 (build_headers METADATA_NAME "application/json") meta.dump,
               "--" ++ boundary ++ "--\r\n"] } := by
  unfold mkMultipartResponse
  rw [if_neg (by norm_num)]
  rw [if_neg (by simp [convert_metadata_to_multipart_field, METADATA_NAME])]
  rw [sortFields_singleton,
    encodeParts_ok_of_nonempty hb _
      (by
        intro f hf
        simp at hf
        subst hf
        exact metadata_dump_ne_empty meta)]
  rfl

theorem result_to_response_ok_of_no_modifications
    (r : Result) (boundary : String) (hb : boundary ≠ "")
    (hp : r.modified_prompt = none) (hq : r.modified_response = none) :
    ∃ resp, r.to_response boundary = .ok resp ∧
      (resp.statusCode = 200 ∨ resp.statusCode = 204) := by
  unfold Result.to_response
  split
  · exact ⟨.noContent, rfl, Or.inr rfl⟩
  · rw [responseFieldList_no_modifications hp hq,
      mkMultipartResponse_singleton_metadata_ok hb]
    exact ⟨_, rfl, Or.inl rfl⟩

end AIGW

namespace AIGW

theorem check_ok_not_both {r : Result} (h : r.check_prompt_or_response = .ok r) :
    ¬(r.modified_prompt.isSome = true ∧ r.modified_response.isSome = true) := by
  unfold Result.check_prompt_or_response at h
  intro hc
  rw [if_pos hc] at h
  exact absurd h (by simp)

theorem validate_allowed_shape (r : Result) (n : String) (annotate modify : Bool)
    (hm : r.modifiedProp = false) :
    r.validate_allowed n annotate modify =
      (if r.tags.isTruthy && !annotate then
        ({ r with tags := {} }, [Warning.tagsDropped n])
       else (r, [])) := by
  unfold Result.validate_allowed
  rw [hm]
  simp only [Bool.false_and, Bool.false_eq_true, if_false]
  split <;> simp

/-- C2: whenever a handler-returned Result sets modified_prompt (respectively
modified_response) whose hash equals the hash of the prompt (respectively
response) computed before the handler ran, the dispatch core clears both
modification fields, and the serialized multipart response therefore contains
no input.messages and no response.choices part. -/
theorem noop_modification_omitted
    (proc : ProcessorInfo) (params : Parameters)
    (prompt_hash response_hash : Option Nat) (r : Result)
    (hwf : r.check_prompt_or_response = .ok r)
    (helim : (∃ mp, r.modified_prompt = some mp ∧ prompt_hash = some mp.hashOf) ∨
             (∃ mr, r.modified_response = some mr ∧ response_hash = some mr.hashOf)) :
    ∃ r' ws, dispatchOutcome proc params prompt_hash response_hash (.result r) =
        .ok (.result r', ws) ∧
      r'.modified_prompt = none ∧ r'.modified_response = none ∧
      ∀ boundary resp, r'.to_response boundary = .ok resp →
        ∀ p ∈ resp.parts, p.name ≠ INPUT_NAME ∧ p.name ≠ RESPONSE_NAME := by
  have hnb := check_ok_not_both hwf
  have hkey : ((match r.modified_prompt with
                | some mp => prompt_hash != some mp.hashOf
                | none => false) ||
               (match r.modified_response with
                | some mr => response_hash != some mr.hashOf
                | none => false)) = false ∧
              (r.modified_prompt.isSome || r.modified_response.isSome) = true := by
    rcases helim with ⟨mp, hmp, hph⟩ | ⟨mr, hmr, hrh⟩
    · have hmrn : r.modified_response = none := by
        rcases hq : r.modified_response with _ | mr'
        · rfl
        · exact absurd ⟨by simp [hmp], by simp [hq]⟩ hnb
      rw [hmp, hmrn, hph]
      simp
    · have hmpn : r.modified_prompt = none := by
        rcases hq : r.modified_prompt with _ | mp'
        · rfl
        · exact absurd ⟨by simp [hq], by simp [hmr]⟩ hnb
      rw [hmpn, hmr, hrh]
      simp
  have hdisp : dispatchOutcome proc params prompt_hash response_hash (.result r) =
      .ok (.result (Result.validate_allowed
              { r with modified_prompt := none, modified_response := none }
              proc.name params.annotate params.modify).1,
           (Result.validate_allowed
              { r with modified_prompt := none, modified_response := none }
              proc.name params.annotate params.modify).2) := by
    simp only [dispatchOutcome]
    rw [hkey.1, hkey.2]
    simp
  rw [validate_allowed_shape _ _ _ _ (by rfl)] at hdisp
  dsimp only at hdisp
  by_cases hta : (r.tags.isTruthy && !params.annotate) = true
  · rw [if_pos hta] at hdisp
    refine ⟨_, _, hdisp, rfl, rfl, ?_⟩
    intro boundary resp hto p hp'
    have hm := to_response_parts_all_metadata rfl rfl hto p hp'
    rw [hm]
    exact ⟨by decide, by decide⟩
  · rw [if_neg hta] at hdisp
    refine ⟨_, _, hdisp, rfl, rfl, ?_⟩
    intro boundary resp hto p hp'
    have hm := to_response_parts_all_metadata rfl rfl hto p hp'
    rw [hm]
    exact ⟨by decide, by decide⟩

end AIGW

namespace AIGW

theorem validate_allowed_shape_modified (r : Result) (n : String) (annotate : Bool)
    (hm : r.modifiedProp = true) :
    r.validate_allowed n annotate false =
      (if r.tags.isTruthy && !annotate then
        ({ r with modified_prompt := none, modified_response := none, tags := {} },
         [Warning.modificationDropped n, Warning.tagsDropped n])
       else
        ({ r with modified_prompt := none, modified_response := none },
         [Warning.modificationDropped n])) := by
  unfold Result.validate_allowed
  rw [hm]
  dsimp only
  split
  · split <;> simp_all
  · simp_all

/-- C3: policy gating runs strictly after hash-based no-op elimination: with
parameters.modify = false, a Result whose modified_prompt genuinely differs
from the original (hashes differ) has the modification dropped and the
modification warning logged, while a hash-equal modification is eliminated
first and triggers no modification warning. -/
theorem policy_gating_runs_after_noop_elimination
    (proc : ProcessorInfo) (params : Parameters)
    (response_hash : Option Nat) (r : Result) (mp : RequestInput) (h0 : Nat)
    (hmodify : params.modify = false)
    (hwf : r.check_prompt_or_response = .ok r)
    (hmp : r.modified_prompt = some mp) :
    (mp.hashOf ≠ h0 →
      ∃ r' ws, dispatchOutcome proc params (some h0) response_hash (.result r) =
          .ok (.result r', ws) ∧
        r'.modified_prompt = none ∧ r'.modified_response = none ∧
        Warning.modificationDropped proc.name ∈ ws) ∧
    (mp.hashOf = h0 →
      ∃ r' ws, dispatchOutcome proc params (some h0) response_hash (.result r) =
          .ok (.result r', ws) ∧
        r'.modified_prompt = none ∧ r'.modified_response = none ∧
        Warning.modificationDropped proc.name ∉ ws) := by
  have hnb := check_ok_not_both hwf
  have hmrn : r.modified_response = none := by
    rcases hq : r.modified_response with _ | mr'
    · rfl
    · exact absurd ⟨by simp [hmp], by simp [hq]⟩ hnb
  constructor
  · intro hne
    have hkey1 : ((match r.modified_prompt with
                   | some mp' => some h0 != some mp'.hashOf
                   | none => false) ||
                  (match r.modified_response with
                   | some mr' => response_hash != some mr'.hashOf
                   | none => false)) = true := by
      rw [hmp, hmrn]
      simp [bne_iff_ne]
      omega
    have hdisp : dispatchOutcome proc params (some h0) response_hash (.result r) =
        .ok (.result (r.validate_allowed proc.name params.annotate params.modify).1,
             (r.validate_allowed proc.name params.annotate params.modify).2) := by
      simp only [dispatchOutcome]
      rw [hkey1]
      simp
    rw [hmodify] at hdisp
    rw [validate_allowed_shape_modified r _ _ (by simp [Result.modifiedProp, hmp])] at hdisp
    by_cases hta : (r.tags.isTruthy && !params.annotate) = true
    · rw [if_pos hta] at hdisp
      exact ⟨_, _, hdisp, rfl, rfl, by simp⟩
    · rw [if_neg hta] at hdisp
      exact ⟨_, _, hdisp, rfl, rfl, by simp⟩
  · intro heq
    have hkey : ((match r.modified_prompt with
                  | some mp' => some h0 != some mp'.hashOf
                  | none => false) ||
                 (match r.modified_response with
                  | some mr' => response_hash != some mr'.hashOf
                  | none => false)) = false := by
      rw [hmp, hmrn]
      simp [heq]
    have hsome : (r.modified_prompt.isSome || r.modified_response.isSome) = true := by
      simp [hmp]
    have hdisp : dispatchOutcome proc params (some h0) response_hash (.result r) =
        .ok (.result (Result.validate_allowed
                { r with modified_prompt := none, modified_response := none }
                proc.name params.annotate params.modify).1,
             (Result.validate_allowed
                { r with modified_prompt := none, modified_response := none }
                proc.name params.annotate params.modify).2) := by
      simp only [dispatchOutcome]
      rw [hkey, hsome]
      simp
    rw [validate_allowed_shape _ _ _ _ (by rfl)] at hdisp
    dsimp only at hdisp
    by_cases hta : (r.tags.isTruthy && !params.annotate) = true
    · rw [if_pos hta] at hdisp
      exact ⟨_, _, hdisp, rfl, rfl, by simp⟩
    · rw [if_neg hta] at hdisp
      exact ⟨_, _, hdisp, rfl, rfl, by simp⟩

/-- C6: when the handler returns a Reject but parameters.reject is false, the
dispatch core does not fail the request: it logs a warning and replaces the
Reject with a Result carrying only the Reject's metadata, and that result
serializes to a normal success response (status 200 or 204), not an error. -/
theorem reject_downgraded_when_reject_disallowed
    (proc : ProcessorInfo) (params : Parameters)
    (prompt_hash response_hash : Option Nat) (rej : Reject) (boundary : String)
    (hreject : params.reject = false) (hb : boundary ≠ "") :
    dispatchOutcome proc params prompt_hash response_hash (.reject rej) =
      .ok (.result { metadata := some rej.metadata },
           [Warning.rejectionDropped proc.name]) ∧
    ∃ resp, Outcome.to_response boundary
        (.result { metadata := some rej.metadata }) = .ok resp ∧
      (resp.statusCode = 200 ∨ resp.statusCode = 204) := by
  constructor
  · simp [dispatchOutcome, hreject]
  · exact result_to_response_ok_of_no_modifications _ boundary hb rfl rfl

end AIGW

namespace AIGW

theorem multipart_field_order_le_three (n : String) : multipart_field_order n ≤ 3 := by
  unfold multipart_field_order
  split_ifs <;> omega

theorem multipart_field_order_eq_three {n : String}
    (h : multipart_field_order n = 3) : n = METADATA_NAME := by
  unfold multipart_field_order at h
  split_ifs at h <;> first | omega | assumption

/-- C4: every successfully constructed multipart response (construction
requires a metadata field) serializes the metadata part as the last part,
immediately before the closing boundary, regardless of the order in which the
fields were supplied. -/
theorem metadata_part_always_last
    (boundary : String) (status : Nat) (fields : List MultipartResponseField)
    (resp : MultipartHttpResponse)
    (h : mkMultipartResponse boundary status fields = .ok resp) :
    ∃ pre metaPart,
      resp.parts = pre ++ [metaPart] ∧ metaPart.name = METADATA_NAME ∧
      resp.chunks =
        pre.map (fun f =>
          encodeFieldChunk boundary (build_headers f.name f.content_type) f.content)
          ++ [encodeFieldChunk boundary
                (build_headers metaPart.name metaPart.content_type) metaPart.content,
              "--" ++ boundary ++ "--\r\n"] := by
  unfold mkMultipartResponse at h
  split at h
  · exact absurd h (by simp)
  · split at h
    · exact absurd h (by simp)
    · rename_i hany
      split at h
      · exact absurd h (by simp)
      · rename_i encoded henc
        cases h
        have hany' : fields.any (fun f => f.name == "metadata") = true := by
          revert hany
          cases fields.any (fun f => f.name == "metadata") <;> simp
        obtain ⟨f, hfmem, hfname⟩ := List.any_eq_true.mp hany'
        have hfname' : f.name = METADATA_NAME := by
          simpa [METADATA_NAME] using hfname
        have hperm := List.perm_insertionSort
          (fun a b : MultipartResponseField =>
            multipart_field_order a.name ≤ multipart_field_order b.name) fields
        have hmem : f ∈ sortFields fields := by
          unfold sortFields
          exact hperm.mem_iff.mpr hfmem
        have hne : sortFields fields ≠ [] := by
          intro hnil
          rw [hnil] at hmem
          exact absurd hmem (List.not_mem_nil f)
        have hsorted : List.Sorted
            (fun a b : MultipartResponseField =>
              multipart_field_order a.name ≤ multipart_field_order b.name)
            (sortFields fields) := by
          haveI : IsTotal MultipartResponseField
              (fun a b => multipart_field_order a.name ≤ multipart_field_order b.name) :=
            ⟨fun a b => Nat.le_total _ _⟩
          haveI : IsTrans MultipartResponseField
              (fun a b => multipart_field_order a.name ≤ multipart_field_order b.name) :=
            ⟨fun a b c => Nat.le_trans⟩
          exact List.sorted_insertionSort _ fields
        set x := (sortFields fields).getLast hne with hx
        have hdecomp : (sortFields fields).dropLast ++ [x] = sortFields fields :=
          List.dropLast_append_getLast hne
        have hxname : x.name = METADATA_NAME := by
          rw [← hdecomp] at hmem
          rcases List.mem_append.mp hmem with hpre | hlast
          · rw [← hdecomp] at hsorted
            have hpair := (List.pairwise_append.mp hsorted).2.2
            have hle : multipart_field_order f.name ≤ multipart_field_order x.name :=
              hpair f hpre x (List.mem_singleton_self x)
            rw [hfname'] at hle
            have h3 : multipart_field_order x.name = 3 :=
              Nat.le_antisymm (multipart_field_order_le_three _)
                (by simpa [METADATA_NAME, multipart_field_order] using hle)
            exact multipart_field_order_eq_three h3
          · rw [List.mem_singleton.mp hlast] at hfname'
            exact hfname'
        refine ⟨(sortFields fields).dropLast, x, ?_, hxname, ?_⟩
        · exact hdecomp.symm
        · have hmap := encodeParts_ok_eq_map henc
          rw [hmap, ← hdecomp]
          simp

end AIGW

namespace AIGW

theorem noop_modification_omitted_witness :
    (Result.check_prompt_or_response { modified_prompt := some { messages := [] } } =
       .ok { modified_prompt := some { messages := [] } } ∧
     ((∃ mp, ({ modified_prompt := some { messages := [] } } : Result).modified_prompt = some mp ∧
         some (RequestInput.hashOf { messages := [] }) = some mp.hashOf) ∨
      (∃ mr, ({ modified_prompt := some { messages := [] } } : Result).modified_response = some mr ∧
         (none : Option Nat) = some mr.hashOf))) ∧
    (∃ r' ws, dispatchOutcome { name := "P", id := "ns:p", version := "v1" } {}
        (some (RequestInput.hashOf { messages := [] })) none
        (.result { modified_prompt := some { messages := [] } }) = .ok (.result r', ws) ∧
      r'.modified_prompt = none ∧ r'.modified_response = none ∧
      ∀ boundary resp, r'.to_response boundary = .ok resp →
        ∀ p ∈ resp.parts, p.name ≠ INPUT_NAME ∧ p.name ≠ RESPONSE_NAME) :=
  ⟨⟨rfl, Or.inl ⟨_, rfl, rfl⟩⟩,
   noop_modification_omitted _ _ _ _ _ rfl (Or.inl ⟨_, rfl, rfl⟩)⟩

theorem policy_gating_runs_after_noop_elimination_witness :
    (({} : Parameters).modify = false ∧
     Result.check_prompt_or_response { modified_prompt := some { messages := [] } } =
       .ok { modified_prompt := some { messages := [] } } ∧
     ({ modified_prompt := some { messages := [] } } : Result).modified_prompt =
       some { messages := [] }) ∧
    ((RequestInput.hashOf { messages := [] } ≠ 0 →
      ∃ r' ws, dispatchOutcome { name := "P", id := "ns:p", version := "v1" } {}
          (some 0) none (.result { modified_prompt := some { messages := [] } }) =
          .ok (.result r', ws) ∧
        r'.modified_prompt = none ∧ r'.modified_response = none ∧
        Warning.modificationDropped "P" ∈ ws) ∧
     (RequestInput.hashOf { messages := [] } = 0 →
      ∃ r' ws, dispatchOutcome { name := "P", id := "ns:p", version := "v1" } {}
          (some 0) none (.result { modified_prompt := some { messages := [] } }) =
          .ok (.result r', ws) ∧
        r'.modified_prompt = none ∧ r'.modified_response = none ∧
        Warning.modificationDropped "P" ∉ ws)) :=
  ⟨⟨rfl, rfl, rfl⟩,
   policy_gating_runs_after_noop_elimination
     { name := "P", id := "ns:p", version := "v1" } {} none
     { modified_prompt := some { messages := [] } } { messages := [] } 0 rfl rfl rfl⟩

theorem metadata_part_always_last_witness :
    ∃ resp, mkMultipartResponse "B" 200
        [{ name := METADATA_NAME, content := "\x7b\x7d" },
         { name := INPUT_NAME, content := "x" }] = .ok resp ∧
      ∃ pre metaPart,
        resp.parts = pre ++ [metaPart] ∧ metaPart.name = METADATA_NAME ∧
        resp.chunks =
          pre.map (fun f =>
            encodeFieldChunk "B" (build_headers f.name f.content_type) f.content)
            ++ [encodeFieldChunk "B"
                  (build_headers metaPart.name metaPart.content_type) metaPart.content,
                "--" ++ "B" ++ "--\r\n"]   := by
  have h : mkMultipartResponse "B" 200
      [{ name := METADATA_NAME, content := "\x7b\x7d" },
       { name := INPUT_NAME, content := "x" }] =
      .ok { status_code := 200,
            parts := [{ name := INPUT_NAME, content := "x" },
                      { name := METADATA_NAME, content := "\x7b\x7d" }],
            chunks := [encodeFieldChunk "B" (build_headers INPUT_NAME "application/json") "x",
                       encodeFieldChunk "B" (build_headers METADATA_NAME "application/json") "\x7b\x7d",
                       "--" ++ "B" ++ "--\r\n"] } := rfl
  exact ⟨_, h, metadata_part_always_last "B" 200 _ _ h⟩

theorem reject_downgraded_when_reject_disallowed_witness :
    (({} : Parameters).reject = false ∧ ("B" : String) ≠ "") ∧
    (dispatchOutcome { name := "P", id := "ns:p", version := "v1" } {} none none
        (.reject { code := "AIGW_POLICY_VIOLATION", detail := "denied" }) =
      .ok (.result { metadata := some ({ code := "AIGW_POLICY_VIOLATION",
                                         detail := "denied" } : Reject).metadata },
           [Warning.rejectionDropped "P"]) ∧
     ∃ resp, Outcome.to_response "B"
        (.result { metadata := some ({ code := "AIGW_POLICY_VIOLATION",
                                       detail := "denied" } : Reject).metadata }) = .ok resp ∧
      (resp.statusCode = 200 ∨ resp.statusCode = 204)) :=
  ⟨⟨rfl, by decide⟩,
   reject_downgraded_when_reject_disallowed
     { name := "P", id := "ns:p", version := "v1" } {} none none
     { code := "AIGW_POLICY_VIOLATION", detail := "denied" } "B" rfl (by decide)⟩

end AIGW
